import Mathlib

/-!
Verification development for the Cloud-Resource-Tag-Auditor repository.

The Go source (auditor.go, main.go) is shallowly embedded here:

* Go values: a map[string]string is an insertion-ordered association list with
  unique keys, wrapped in Option (none models a nil map); a []string slice is
  an Option-wrapped list (none models a nil slice; append on nil allocates).
* Providers (auditEC2, auditS3, auditRDS, auditLambda) become pure functions
  from an environment (the responses of the AWS API calls they make) to the
  sequence of channel events they emit, in program order: records sent on
  resourceChan and errors sent on errorChan.
* The coordinator AuditResources is a relation: the collector loop consumes an
  arbitrary interleaving of the launched providers' event streams (the done
  signal fires only after every producer send has been received), appending
  records and short-circuiting on the first error event.
* Presenters are modelled byte-for-byte, including Go specifics: fmt and
  encoding/json render maps in sorted key order, encoding/csv quotes a field
  only when it contains a comma, a quote, CR/LF or a leading space, and the
  csv writer buffers through a 4096-byte bufio.Writer whose final Flush error
  OutputCSV ignores.  Map range iteration order is a parameter (Go randomizes
  it), constrained to a permutation of the map entries.
* Write failures are modelled by MWriter; fmt.Fprint results are discarded
  exactly where the source discards them.
-/

namespace TagAuditor

abbrev GoError := String

/-- A Go map[string]string: none is a nil map; some holds the entries in
insertion order with unique keys. -/
abbrev GoMap := Option (List (String × String))

/-- A Go []string: none is a nil slice. -/
abbrev GoSlice := Option (List String)

def goMakeMap : GoMap := some []

def goMakeSlice : GoSlice := some []

/-- Assignment m[k] = v on the underlying entry list: overwrite in place if
the key exists, otherwise append. -/
def assocInsert (k v : String) : List (String × String) → List (String × String)
  | [] => [(k, v)]
  | (k', v') :: rest => if k' = k then (k', v) :: rest else (k', v') :: assocInsert k v rest

def goMapInsert (m : GoMap) (k v : String) : GoMap :=
  m.map (assocInsert k v)

/-- Map read m[k]; reading a nil map yields no entry. -/
def goMapLookup (m : GoMap) (k : String) : Option String :=
  match m with
  | none => none
  | some l => l.lookup k

def goMapEntries (m : GoMap) : List (String × String) :=
  m.getD []

/-- Go append on a string slice (append on nil allocates). -/
def goAppend (s : GoSlice) (x : String) : GoSlice :=
  match s with
  | none => some [x]
  | some l => some (l ++ [x])

def goSliceList (s : GoSlice) : List String :=
  s.getD []

/-- ResourceInfo from auditor.go. -/
structure ResourceInfo where
  serviceName : String
  resourceID : String
  resourceType : String
  tags : GoMap
  missingTags : GoSlice
deriving DecidableEq

/-- tags := make(map[string]string) filled from the listed tag pairs. -/
def buildTags (pairs : List (String × String)) : GoMap :=
  pairs.foldl (fun m kv => goMapInsert m kv.1 kv.2) goMakeMap

/-- The missing-tags loop shared verbatim by all four providers:
for each required tag, append it when the tags map has no entry for it. -/
def computeMissing (tags : GoMap) (requiredTags : List String) : GoSlice :=
  requiredTags.foldl
    (fun acc required => if (goMapLookup tags required).isSome then acc else goAppend acc required)
    goMakeSlice

/-- The per-resource record construction common to the four providers. -/
def mkRecord (svc id rtype : String) (tagPairs : List (String × String))
    (requiredTags : List String) : ResourceInfo :=
  let tags := buildTags tagPairs
  { serviceName := svc, resourceID := id, resourceType := rtype,
    tags := tags, missingTags := computeMissing tags requiredTags }

/-- One EC2 instance as returned by DescribeInstances. -/
structure Ec2Instance where
  instanceId : String
  tags : List (String × String)
deriving DecidableEq

structure Reservation where
  instances : List Ec2Instance
deriving DecidableEq

instance {ε α : Type} [DecidableEq ε] [DecidableEq α] : DecidableEq (Except ε α) := fun x y =>
  match x, y with
  | .ok a, .ok b =>
    if h : a = b then .isTrue (by rw [h]) else .isFalse (fun hc => h (Except.ok.inj hc))
  | .error a, .error b =>
    if h : a = b then .isTrue (by rw [h]) else .isFalse (fun hc => h (Except.error.inj hc))
  | .ok _, .error _ => .isFalse (fun hc => Except.noConfusion hc)
  | .error _, .ok _ => .isFalse (fun hc => Except.noConfusion hc)

/-- One S3 bucket, carrying the outcome of the per-bucket GetBucketTagging call. -/
structure S3Bucket where
  name : String
  getBucketTagging : Except GoError (List (String × String))
deriving DecidableEq

structure DBInstance where
  dbInstanceIdentifier : String
  tagList : List (String × String)
deriving DecidableEq

/-- One Lambda function, carrying the outcome of the per-function ListTags call. -/
structure LambdaFunction where
  functionName : String
  functionArn : String
  listTags : Except GoError (List (String × String))
deriving DecidableEq

/-- Responses of the primary listing calls each provider makes. -/
structure AwsEnv where
  describeInstances : Except GoError (List Reservation)
  listBuckets : Except GoError (List S3Bucket)
  describeDBInstances : Except GoError (List DBInstance)
  listFunctions : Except GoError (List LambdaFunction)

/-- A send performed by a provider goroutine: a record on resourceChan or an
error on errorChan. -/
inductive PEvent
  | res (r : ResourceInfo)
  | perr (e : GoError)
deriving DecidableEq

def auditEC2 (env : AwsEnv) (requiredTags : List String) : List PEvent :=
  match env.describeInstances with
  | .error e => [.perr ("failed to describe EC2 instances: " ++ e)]
  | .ok reservations =>
    (reservations.flatMap (fun r => r.instances)).map
      (fun inst => .res (mkRecord "EC2" inst.instanceId "Instance" inst.tags requiredTags))

def auditS3 (env : AwsEnv) (requiredTags : List String) : List PEvent :=
  match env.listBuckets with
  | .error e => [.perr ("failed to list S3 buckets: " ++ e)]
  | .ok buckets =>
    buckets.map (fun b =>
      match b.getBucketTagging with
      | .ok ts => .res (mkRecord "S3" b.name "Bucket" ts requiredTags)
      | .error _ => .res (mkRecord "S3" b.name "Bucket" [] requiredTags))

def auditRDS (env : AwsEnv) (requiredTags : List String) : List PEvent :=
  match env.describeDBInstances with
  | .error e => [.perr ("failed to describe RDS instances: " ++ e)]
  | .ok instances =>
    instances.map
      (fun inst => .res (mkRecord "RDS" inst.dbInstanceIdentifier "DBInstance" inst.tagList requiredTags))

def auditLambda (env : AwsEnv) (requiredTags : List String) : List PEvent :=
  match env.listFunctions with
  | .error e => [.perr ("failed to list Lambda functions: " ++ e)]
  | .ok fns =>
    fns.flatMap (fun f =>
      match f.listTags with
      | .error e => [.perr ("failed to get tags for Lambda function " ++ f.functionName ++ ": " ++ e)]
      | .ok ts => [.res (mkRecord "Lambda" f.functionName "Function" ts requiredTags)])

/-- Lowercasing as performed by strings.ToLower (service names are ASCII). -/
def goToLower (s : String) : String :=
  String.mk (s.data.map Char.toLower)

/-- The switch in the per-service goroutine body: which event stream the
goroutine launched for svc produces. An unmatched service produces nothing. -/
def providerStream (env : AwsEnv) (requiredTags : List String) (svc : String) : List PEvent :=
  if goToLower svc = "ec2" then auditEC2 env requiredTags
  else if goToLower svc = "s3" then auditS3 env requiredTags
  else if goToLower svc = "rds" then auditRDS env requiredTags
  else if goToLower svc = "lambda" then auditLambda env requiredTags
  else []

/-- The collector loop of AuditResources: consume events in arrival order,
appending records; return the first error as is; the done signal (end of the
list, possible only once every send was received) returns the report. -/
def collect : List PEvent → List ResourceInfo → Except GoError (List ResourceInfo)
  | [], acc => .ok acc
  | .res r :: rest, acc => collect rest (acc ++ [r])
  | .perr e :: _, _ => .error e

/-- The collector loop together with the suffix of events it never consumed:
on an early error return these are sends still pending in blocked producer
goroutines. -/
def collectRemaining : List PEvent → List ResourceInfo →
    Except GoError (List ResourceInfo) × List PEvent
  | [], acc => (.ok acc, [])
  | .res r :: rest, acc => collectRemaining rest (acc ++ [r])
  | .perr e :: rest, _ => (.error e, rest)

/-- out is an arrival order of the sends of the concurrently running producer
streams ss: repeatedly some stream with a pending send delivers its head. -/
inductive Interleaves : List (List PEvent) → List PEvent → Prop
  | nil (ss : List (List PEvent)) (h : ∀ s ∈ ss, s = []) : Interleaves ss []
  | cons (ss : List (List PEvent)) (i : Nat) (hi : i < ss.length) (a : PEvent)
      (rest out : List PEvent)
      (hget : ss.get ⟨i, hi⟩ = a :: rest)
      (htail : Interleaves (ss.set i rest) out) :
      Interleaves ss (a :: out)

/-- AuditResources: one goroutine per requested service; the collector
consumes some interleaving of their sends. result is a possible return value. -/
def AuditResources (env : AwsEnv) (services requiredTags : List String)
    (result : Except GoError (List ResourceInfo)) : Prop :=
  ∃ obs, Interleaves (services.map (providerStream env requiredTags)) obs ∧
    collect obs [] = result

/-! Presenters. -/

/-- Insertion step for sorting map entries by key. -/
def insertLe (x : String × String) : List (String × String) → List (String × String)
  | [] => [x]
  | y :: ys => if x.1 ≤ y.1 then x :: y :: ys else y :: insertLe x ys

/-- Map entries in sorted key order: both fmt and encoding/json render a
map[string]string this way, independently of range iteration order. -/
def sortEntries (l : List (String × String)) : List (String × String) :=
  l.foldr insertLe []

/-- fmt %v of a map[string]string (sorted key order; a nil map prints the
same as an empty one). -/
def fmtTagMap (entries : List (String × String)) : String :=
  "map[" ++ String.intercalate " " ((sortEntries entries).map (fun kv => kv.1 ++ ":" ++ kv.2)) ++ "]"

/-- fmt %v of a []string. -/
def fmtStringSlice (l : List String) : String :=
  "[" ++ String.intercalate " " l ++ "]"

/-- The text block OutputText prints for one record; entries is the tag map
content handed to fmt. -/
def textBlock (entries : List (String × String)) (r : ResourceInfo) : String :=
  "\nService: " ++ r.serviceName ++ "\n" ++
  "Resource ID: " ++ r.resourceID ++ "\n" ++
  "Resource Type: " ++ r.resourceType ++ "\n" ++
  "Tags: " ++ fmtTagMap entries ++ "\n" ++
  (if (goSliceList r.missingTags).length > 0 then
    "Missing Tags: " ++ fmtStringSlice (goSliceList r.missingTags) ++ "\n"
  else "") ++
  "--------------------------\n"

/-- OutputText rendering of a report, each record paired with the enumeration
of its tag map. -/
def outputTextString (rs : List (ResourceInfo × List (String × String))) : String :=
  "AWS Resource Tag Audit Report\n" ++ "==========================\n" ++
  String.join (rs.map (fun p => textBlock p.2 p.1))

/-- JSON string escaping (quote and backslash; other escapes do not occur in
this development). -/
def jsonEscape (s : String) : String :=
  String.mk (s.data.flatMap (fun c =>
    if c = '"' then ['\\', '"'] else if c = '\\' then ['\\', '\\'] else [c]))

def jsonString (s : String) : String :=
  "\"" ++ jsonEscape s ++ "\""

/-- encoding/json of a non-nil map[string]string: an object in sorted key
order. -/
def jsonTagObj (entries : List (String × String)) : String :=
  "\x7b" ++
    String.intercalate "," ((sortEntries entries).map
      (fun kv => jsonString kv.1 ++ ":" ++ jsonString kv.2)) ++
  "\x7d"

/-- The tags field of a record: a nil map serializes as null, a non-nil map
as an object. -/
def jsonTagsField (m : GoMap) (entries : List (String × String)) : String :=
  match m with
  | none => "null"
  | some _ => jsonTagObj entries

/-- The missing_tags field: a nil slice serializes as null, a non-nil slice
as an array. -/
def jsonMissingField (s : GoSlice) : String :=
  match s with
  | none => "null"
  | some l => "[" ++ String.intercalate "," (l.map jsonString) ++ "]"

def jsonRecord (entries : List (String × String)) (r : ResourceInfo) : String :=
  "\x7b\"service\":" ++ jsonString r.serviceName ++
  ",\"resource_id\":" ++ jsonString r.resourceID ++
  ",\"resource_type\":" ++ jsonString r.resourceType ++
  ",\"tags\":" ++ jsonTagsField r.tags entries ++
  ",\"missing_tags\":" ++ jsonMissingField r.missingTags ++ "\x7d"

/-- OutputJSON rendering (field structure and map key sorting of
encoding/json; indentation elided). A report whose resources slice was never
appended to is nil and serializes as null. -/
def outputJSONString (rs : List (ResourceInfo × List (String × String))) : String :=
  "\x7b\"resources\":" ++
    (match rs with
     | [] => "null"
     | _ => "[" ++ String.intercalate "," (rs.map (fun p => jsonRecord p.2 p.1)) ++ "]") ++
  "\x7d\n"

/-- encoding/csv: a field is quoted only when it contains the comma
delimiter, a quote, CR or LF, is the literal backslash-dot, or starts with a
space. -/
def fieldNeedsQuotes (f : String) : Bool :=
  if f = "" then false
  else if f = "\\." then true
  else if f.data.contains ',' || f.data.contains '"' ||
      f.data.contains '\r' || f.data.contains '\n' then true
  else
    match f.data with
    | [] => false
    | c :: _ => c.isWhitespace

/-- encoding/csv quoting: quotes doubled inside a quoted field. -/
def csvQuote (f : String) : String :=
  "\"" ++ String.mk (f.data.flatMap (fun c => if c = '"' then ['"', '"'] else [c])) ++ "\""

def csvField (f : String) : String :=
  if fieldNeedsQuotes f then csvQuote f else f

/-- One CSV record: encoded fields joined by commas, LF terminated (UseCRLF
is left false). -/
def csvLine (fields : List String) : String :=
  String.intercalate "," (fields.map csvField) ++ "\n"

def csvHeader : List String :=
  ["Service", "Resource ID", "Resource Type", "Tags", "Missing Tags"]

/-- The row OutputCSV builds for one record; entries is the order range
yields the tag map entries in. -/
def csvRowFields (entries : List (String × String)) (r : ResourceInfo) : List String :=
  [r.serviceName, r.resourceID, r.resourceType,
   String.intercalate "; " (entries.map (fun kv => kv.1 ++ ":" ++ kv.2)),
   String.intercalate "; " (goSliceList r.missingTags)]

/-- OutputCSV rendering of a report, each record paired with its tag map
enumeration order. -/
def outputCSVString (rs : List (ResourceInfo × List (String × String))) : String :=
  csvLine csvHeader ++ String.join (rs.map (fun p => csvLine (csvRowFields p.2 p.1)))

/-! Destination streams and write failures. -/

/-- An io.Writer destination: chunks successfully written so far, and whether
writes fail (e.g. a broken pipe). -/
structure MWriter where
  chunks : List String
  failing : Bool
deriving DecidableEq

def mwrite (w : MWriter) (s : String) : MWriter × Option GoError :=
  if w.failing then (w, some "broken pipe")
  else ({ w with chunks := w.chunks ++ [s] }, none)

/-- An fmt.Fprint call whose result the caller discards. -/
def fprint (w : MWriter) (s : String) : MWriter :=
  (mwrite w s).1

/-- OutputText: every fmt.Fprint result is discarded and nil is returned. -/
def outputTextW (w : MWriter) (rs : List (ResourceInfo × List (String × String))) :
    MWriter × Option GoError :=
  let w1 := fprint w "AWS Resource Tag Audit Report\n"
  let w2 := fprint w1 "==========================\n"
  (rs.foldl (fun wa p => fprint wa (textBlock p.2 p.1)) w2, none)

/-- OutputJSON: the encoder marshals, then writes once; that write error is
returned. -/
def outputJSONW (w : MWriter) (rs : List (ResourceInfo × List (String × String))) :
    MWriter × Option GoError :=
  mwrite w (outputJSONString rs)

/-- The bufio.Writer (4096-byte buffer) inside csv.Writer; write errors are
sticky. -/
structure BufWriter where
  w : MWriter
  buf : String
  err : Option GoError

def bufWrite (b : BufWriter) (s : String) : BufWriter × Option GoError :=
  match b.err with
  | some e => (b, some e)
  | none =>
    if b.buf.length + s.length ≤ 4096 then
      ({ b with buf := b.buf ++ s }, none)
    else
      match mwrite b.w b.buf with
      | (w', none) => ({ w := w', buf := s, err := none }, none)
      | (w', some e) => ({ w := w', buf := "", err := some e }, some e)

def bufFlush (b : BufWriter) : BufWriter × Option GoError :=
  match b.err with
  | some e => (b, some e)
  | none =>
    if b.buf = "" then (b, none)
    else
      match mwrite b.w b.buf with
      | (w', none) => ({ w := w', buf := "", err := none }, none)
      | (w', some e) => ({ w := w', buf := "", err := some e }, some e)

def csvWriteLine (b : BufWriter) (fields : List String) : BufWriter × Option GoError :=
  bufWrite b (csvLine fields)

def writeRows (b : BufWriter) :
    List (ResourceInfo × List (String × String)) → BufWriter × Option GoError
  | [] => (b, none)
  | p :: rest =>
    match csvWriteLine b (csvRowFields p.2 p.1) with
    | (b', some e) => (b', some ("error writing CSV row: " ++ e))
    | (b', none) => writeRows b' rest

/-- OutputCSV: header row, data rows, then the deferred Flush whose error is
discarded. -/
def outputCSVW (w : MWriter) (rs : List (ResourceInfo × List (String × String))) :
    MWriter × Option GoError :=
  let b0 : BufWriter := ⟨w, "", none⟩
  match csvWriteLine b0 csvHeader with
  | (b1, some e) => (((bufFlush b1).1).w, some ("error writing CSV header: " ++ e))
  | (b1, none) =>
    match writeRows b1 rs with
    | (b2, some e) => (((bufFlush b2).1).w, some e)
    | (b2, none) => (((bufFlush b2).1).w, none)

/-! The CLI layer (main.go). -/

def knownService (svc : String) : Bool :=
  goToLower svc = "ec2" || goToLower svc = "s3" || goToLower svc = "rds" || goToLower svc = "lambda"

/-- The requested services whose provider actually runs. -/
def launchedProviders (services : List String) : List String :=
  services.filter knownService

def canonEnum (rs : List ResourceInfo) : List (ResourceInfo × List (String × String)) :=
  rs.map (fun r => (r, goMapEntries r.tags))

/-- runAudit from main.go: the audit runs first (obs is the event order the
collector saw); only afterwards is the output format inspected, with an
unsupported format reported as an error. The first component records which
providers were launched, which does not depend on the format. -/
def runAudit (env : AwsEnv) (services requiredTags : List String) (format : String)
    (obs : List PEvent) : List String × Except GoError String :=
  (launchedProviders services,
   match collect obs [] with
   | .error e => .error ("failed to audit resources: " ++ e)
   | .ok resources =>
     if format = "json" then .ok (outputJSONString (canonEnum resources))
     else if format = "csv" then .ok (outputCSVString (canonEnum resources))
     else if format = "text" then .ok (outputTextString (canonEnum resources))
     else .error ("unsupported output format: " ++ format))

/-- The audit subcommand: the CLI framework rejects a missing required
--required-tags flag before the Run hook executes (no provider launched), and
any error returned by runAudit is fatal with a non-zero exit. Returns the
exit code and the providers launched. -/
def cliRun (requiredTagsFlag : Option (List String)) (services : List String)
    (format : String) (env : AwsEnv) (obs : List PEvent) : Nat × List String :=
  match requiredTagsFlag with
  | none => (1, [])
  | some rt =>
    match (runAudit env services rt format obs).2 with
    | .error _ => (1, (runAudit env services rt format obs).1)
    | .ok _ => (0, (runAudit env services rt format obs).1)

/-! Concrete inputs used to instantiate the theorems. -/

/-- The record of the spec's CSV scenario, as auditEC2 constructs it. -/
def sampleRecord : ResourceInfo :=
  mkRecord "EC2" "i-1234567890abcdef0" "Instance"
    [("Name", "webserver"), ("environment", "production")]
    ["environment", "project", "owner"]

/-- One EC2 instance carrying the scenario tags. -/
def envScenario : AwsEnv :=
  { describeInstances := .ok [⟨[⟨"i-1234567890abcdef0",
      [("Name", "webserver"), ("environment", "production")]⟩]⟩],
    listBuckets := .ok [], describeDBInstances := .ok [], listFunctions := .ok [] }

/-- One untagged EC2 instance. -/
def envOneInstance : AwsEnv :=
  { describeInstances := .ok [⟨[⟨"i-1", []⟩]⟩],
    listBuckets := .ok [], describeDBInstances := .ok [], listFunctions := .ok [] }

/-- EC2 listing fails while S3 has one taggable bucket. -/
def envEc2Down : AwsEnv :=
  { describeInstances := .error "api down",
    listBuckets := .ok [⟨"logs", .ok []⟩],
    describeDBInstances := .ok [], listFunctions := .ok [] }

/-- Per-resource tag fetches fail: the S3 bucket's GetBucketTagging and the
Lambda function's ListTags. -/
def envDegrade : AwsEnv :=
  { describeInstances := .ok [],
    listBuckets := .ok [⟨"logs", .error "access denied"⟩],
    describeDBInstances := .ok [],
    listFunctions := .ok [⟨"fn", "arn:aws:lambda:fn", .error "throttled"⟩] }

def brokenPipeWriter : MWriter := ⟨[], true⟩

/-! Helper lemmas about the embedded operations. -/

theorem goAppend_some (l : List String) (x : String) :
    goAppend (some l) x = some (l ++ [x]) := rfl

theorem computeMissing_foldl (m : GoMap) :
    ∀ (rt : List String) (acc : List String),
      rt.foldl
        (fun acc required =>
          if (goMapLookup m required).isSome then acc else goAppend acc required)
        (some acc)
      = some (acc ++ rt.filter (fun t => (goMapLookup m t).isNone)) := by
  intro rt
  induction rt with
  | nil => intro acc; simp
  | cons t ts ih =>
    intro acc
    by_cases h : (goMapLookup m t).isSome
    · have hn : (goMapLookup m t).isNone = false := by
        cases hv : goMapLookup m t with
        | none => rw [hv] at h; simp at h
        | some v => simp
      simp only [List.foldl_cons, List.filter_cons, hn, if_pos h, Bool.false_eq_true,
        if_false, ih]
    · have hn : (goMapLookup m t).isNone = true := by
        cases hv : goMapLookup m t with
        | none => simp
        | some v => rw [hv] at h; simp at h
      simp only [List.foldl_cons, List.filter_cons, hn, if_neg h, if_true, goAppend_some, ih]
      simp

/-- The shared missing-tags loop computes exactly the required tags absent
from the map, in required order, keeping the input's multiplicity. -/
theorem computeMissing_eq (m : GoMap) (rt : List String) :
    computeMissing m rt = some (rt.filter (fun t => (goMapLookup m t).isNone)) := by
  have h := computeMissing_foldl m rt []
  simpa [computeMissing, goMakeSlice] using h

theorem buildTags_isSome (pairs : List (String × String)) :
    (buildTags pairs).isSome := by
  have h : ∀ (ps : List (String × String)) (m : GoMap), m.isSome →
      (ps.foldl (fun m kv => goMapInsert m kv.1 kv.2) m).isSome := by
    intro ps
    induction ps with
    | nil => intro m hm; simpa using hm
    | cons kv ps ih =>
      intro m hm
      apply ih
      cases m with
      | none => simp at hm
      | some l => simp [goMapInsert]
  exact h _ goMakeMap rfl

theorem res_mem_auditEC2 {env : AwsEnv} {rt : List String} {r : ResourceInfo}
    (h : PEvent.res r ∈ auditEC2 env rt) :
    ∃ id pairs, r = mkRecord "EC2" id "Instance" pairs rt := by
  unfold auditEC2 at h
  cases henv : env.describeInstances with
  | error e => rw [henv] at h; simp at h
  | ok reservations =>
    rw [henv] at h
    rcases List.mem_map.mp h with ⟨inst, _, heq⟩
    exact ⟨inst.instanceId, inst.tags, (PEvent.res.inj heq).symm⟩

theorem res_mem_auditS3 {env : AwsEnv} {rt : List String} {r : ResourceInfo}
    (h : PEvent.res r ∈ auditS3 env rt) :
    ∃ id pairs, r = mkRecord "S3" id "Bucket" pairs rt := by
  unfold auditS3 at h
  cases henv : env.listBuckets with
  | error e => rw [henv] at h; simp at h
  | ok buckets =>
    rw [henv] at h
    rcases List.mem_map.mp h with ⟨b, _, heq⟩
    cases htag : b.getBucketTagging with
    | ok ts =>
      rw [htag] at heq
      exact ⟨b.name, ts, (PEvent.res.inj heq).symm⟩
    | error e =>
      rw [htag] at heq
      exact ⟨b.name, [], (PEvent.res.inj heq).symm⟩

theorem res_mem_auditRDS {env : AwsEnv} {rt : List String} {r : ResourceInfo}
    (h : PEvent.res r ∈ auditRDS env rt) :
    ∃ id pairs, r = mkRecord "RDS" id "DBInstance" pairs rt := by
  unfold auditRDS at h
  cases henv : env.describeDBInstances with
  | error e => rw [henv] at h; simp at h
  | ok instances =>
    rw [henv] at h
    rcases List.mem_map.mp h with ⟨inst, _, heq⟩
    exact ⟨inst.dbInstanceIdentifier, inst.tagList, (PEvent.res.inj heq).symm⟩

theorem res_mem_auditLambda {env : AwsEnv} {rt : List String} {r : ResourceInfo}
    (h : PEvent.res r ∈ auditLambda env rt) :
    ∃ id pairs, r = mkRecord "Lambda" id "Function" pairs rt := by
  unfold auditLambda at h
  cases henv : env.listFunctions with
  | error e => rw [henv] at h; simp at h
  | ok fns =>
    rw [henv] at h
    rcases List.mem_flatMap.mp h with ⟨f, _, hin⟩
    cases htag : f.listTags with
    | error e => rw [htag] at hin; simp at hin
    | ok ts =>
      rw [htag] at hin
      rcases List.mem_singleton.mp hin with heq
      exact ⟨f.functionName, ts, PEvent.res.inj heq⟩

/-- Every record a provider emits is a mkRecord over the required-tag input. -/
theorem res_mem_providerStream {env : AwsEnv} {rt : List String} {svc : String}
    {r : ResourceInfo} (h : PEvent.res r ∈ providerStream env rt svc) :
    ∃ sname id rtype pairs, r = mkRecord sname id rtype pairs rt := by
  unfold providerStream at h
  by_cases h1 : goToLower svc = "ec2"
  · rw [if_pos h1] at h
    rcases res_mem_auditEC2 h with ⟨id, pairs, heq⟩
    exact ⟨"EC2", id, "Instance", pairs, heq⟩
  rw [if_neg h1] at h
  by_cases h2 : goToLower svc = "s3"
  · rw [if_pos h2] at h
    rcases res_mem_auditS3 h with ⟨id, pairs, heq⟩
    exact ⟨"S3", id, "Bucket", pairs, heq⟩
  rw [if_neg h2] at h
  by_cases h3 : goToLower svc = "rds"
  · rw [if_pos h3] at h
    rcases res_mem_auditRDS h with ⟨id, pairs, heq⟩
    exact ⟨"RDS", id, "DBInstance", pairs, heq⟩
  rw [if_neg h3] at h
  by_cases h4 : goToLower svc = "lambda"
  · rw [if_pos h4] at h
    rcases res_mem_auditLambda h with ⟨id, pairs, heq⟩
    exact ⟨"Lambda", id, "Function", pairs, heq⟩
  rw [if_neg h4] at h
  simp at h

theorem interleaves_single (l : List PEvent) : Interleaves [l] l := by
  induction l with
  | nil => exact Interleaves.nil _ (by intro s hs; simpa using hs)
  | cons a rest ih =>
    exact Interleaves.cons [a :: rest] 0 (by simp) a rest rest rfl ih

theorem interleaves_eq_nil {ss : List (List PEvent)} {out : List PEvent}
    (h : Interleaves ss out) (hnil : ∀ s ∈ ss, s = []) : out = [] := by
  cases h with
  | nil => rfl
  | cons ss i hi a rest out hget htail =>
    have : ss.get ⟨i, hi⟩ = [] := hnil _ (ss.get_mem i hi)
    rw [hget] at this
    exact absurd this (by simp)

theorem mem_interleaves {ss : List (List PEvent)} {out : List PEvent}
    (h : Interleaves ss out) :
    ∀ {s : List PEvent} {a : PEvent}, s ∈ ss → a ∈ s → a ∈ out := by
  induction h with
  | nil ss hnil =>
    intro s a hs ha
    rw [hnil s hs] at ha
    simp at ha
  | cons ss i hi b rest out hget htail ih =>
    intro s a hs ha
    rcases List.mem_iff_get.mp hs with ⟨⟨j, hj⟩, hgj⟩
    rw [List.get_eq_getElem] at hgj hget
    by_cases hij : i = j
    · subst hij
      have hs_eq : s = b :: rest := hgj.symm.trans hget
      rw [hs_eq] at ha
      rcases List.mem_cons.mp ha with h1 | h1
      · rw [h1]; exact List.mem_cons_self _ _
      · refine List.mem_cons_of_mem _ (ih ?_ h1)
        have hset : (ss.set i rest).get ⟨i, by simpa using hi⟩ = rest := by simp
        exact List.mem_iff_get.mpr ⟨⟨i, by simpa using hi⟩, hset⟩
    · refine List.mem_cons_of_mem _ (ih ?_ ha)
      have hj2 : j < (ss.set i rest).length := by simpa using hj
      have hset : (ss.set i rest).get ⟨j, hj2⟩ = s := by
        show (ss.set i rest)[j] = s
        rw [List.getElem_set_ne (by omega)]
        exact hgj
      exact List.mem_iff_get.mpr ⟨⟨j, hj2⟩, hset⟩

theorem collect_error_of_mem {obs : List PEvent} {e : GoError}
    (h : PEvent.perr e ∈ obs) :
    ∀ acc, ∃ e', collect obs acc = Except.error e' := by
  induction obs with
  | nil => simp at h
  | cons x rest ih =>
    intro acc
    cases x with
    | res r =>
      have hx : PEvent.perr e ∈ rest := by
        rcases List.mem_cons.mp h with h1 | h1
        · exact absurd h1 (by simp)
        · exact h1
      simpa [collect] using ih hx (acc ++ [r])
    | perr e' => exact ⟨e', rfl⟩

theorem collect_first_error (pre rest : List PEvent) (e : GoError)
    (hpre : ∀ x ∈ pre, ∀ e', x ≠ PEvent.perr e') :
    ∀ acc, collect (pre ++ PEvent.perr e :: rest) acc = Except.error e := by
  induction pre with
  | nil => intro acc; rfl
  | cons x xs ih =>
    intro acc
    cases x with
    | res r =>
      have := ih (fun y hy => hpre y (List.mem_cons_of_mem _ hy))
      simpa [collect] using this (acc ++ [r])
    | perr e' => exact absurd rfl (hpre _ (List.mem_cons_self _ _) e')

theorem insertLe_perm (x : String × String) (l : List (String × String)) :
    (insertLe x l).Perm (x :: l) := by
  induction l with
  | nil => exact List.Perm.refl _
  | cons y ys ih =>
    unfold insertLe
    by_cases h : x.1 ≤ y.1
    · rw [if_pos h]
    · rw [if_neg h]
      exact (List.Perm.cons y ih).trans (List.Perm.swap x y ys)

theorem sortEntries_perm (l : List (String × String)) : (sortEntries l).Perm l := by
  induction l with
  | nil => exact List.Perm.refl _
  | cons x xs ih =>
    exact (insertLe_perm x (sortEntries xs)).trans (List.Perm.cons x ih)

theorem insertLe_sorted (x : String × String) {l : List (String × String)}
    (h : List.Sorted (fun a b : String × String => a.1 ≤ b.1) l) :
    List.Sorted (fun a b : String × String => a.1 ≤ b.1) (insertLe x l) := by
  induction l with
  | nil => simp [insertLe]
  | cons y ys ih =>
    rw [List.sorted_cons] at h
    obtain ⟨hy, hys⟩ := h
    unfold insertLe
    by_cases hxy : x.1 ≤ y.1
    · rw [if_pos hxy, List.sorted_cons]
      refine ⟨?_, List.sorted_cons.mpr ⟨hy, hys⟩⟩
      intro b hb
      rcases List.mem_cons.mp hb with h1 | h1
      · rw [h1]; exact hxy
      · exact le_trans hxy (hy b h1)
    · rw [if_neg hxy, List.sorted_cons]
      refine ⟨?_, ih hys⟩
      intro b hb
      have hb' : b ∈ x :: ys := (insertLe_perm x ys).mem_iff.mp hb
      rcases List.mem_cons.mp hb' with h1 | h1
      · rw [h1]; exact le_of_not_le hxy
      · exact hy b h1

theorem sortEntries_sorted (l : List (String × String)) :
    List.Sorted (fun a b : String × String => a.1 ≤ b.1) (sortEntries l) := by
  induction l with
  | nil => simp [sortEntries]
  | cons x xs ih => exact insertLe_sorted x ih

/-- Two enumerations of the same duplicate-free-keyed map sort identically:
the formatted output of fmt and encoding/json does not depend on range
iteration order. -/
theorem sortEntries_eq_of_perm {l1 l2 : List (String × String)}
    (hp : l1.Perm l2) (hn : (l1.map Prod.fst).Nodup) :
    sortEntries l1 = sortEntries l2 := by
  have hperm : (sortEntries l1).Perm (sortEntries l2) :=
    (sortEntries_perm l1).trans (hp.trans (sortEntries_perm l2).symm)
  have hn1 : ((sortEntries l1).map Prod.fst).Nodup :=
    (((sortEntries_perm l1).map Prod.fst).nodup_iff).mpr hn
  have hn2 : ((sortEntries l2).map Prod.fst).Nodup :=
    ((hperm.map Prod.fst).nodup_iff).mp hn1
  have hpw1 : List.Pairwise (fun a b : String × String => a.1 ≤ b.1 ∧ a.1 ≠ b.1)
      (sortEntries l1) :=
    List.Pairwise.and (sortEntries_sorted l1) (List.pairwise_map.mp hn1)
  have hpw2 : List.Pairwise (fun a b : String × String => a.1 ≤ b.1 ∧ a.1 ≠ b.1)
      (sortEntries l2) :=
    List.Pairwise.and (sortEntries_sorted l2) (List.pairwise_map.mp hn2)
  haveI : IsAntisymm (String × String) (fun a b => a.1 ≤ b.1 ∧ a.1 ≠ b.1) :=
    ⟨fun a b hab hba => absurd (le_antisymm hab.1 hba.1) hab.2⟩
  exact List.eq_of_perm_of_sorted hperm hpw1 hpw2

theorem brace_ne_null (s t : String) : ("\x7b" ++ s ++ t) ≠ "null" := by
  intro h
  have h1 : '\x7b' :: (s.data ++ t.data) = ['n', 'u', 'l', 'l'] := by
    have h2 := congrArg String.data h
    rwa [String.data_append, String.data_append] at h2
  have h3 : ('\x7b' : Char) = 'n' := List.head_eq_of_cons_eq h1
  exact absurd h3 (by decide)

theorem bracket_ne_null (s t : String) : ("[" ++ s ++ t) ≠ "null" := by
  intro h
  have h1 : '[' :: (s.data ++ t.data) = ['n', 'u', 'l', 'l'] := by
    have h2 := congrArg String.data h
    rwa [String.data_append, String.data_append] at h2
  have h3 : ('[' : Char) = 'n' := List.head_eq_of_cons_eq h1
  exact absurd h3 (by decide)

theorem providerStream_toLower_congr (env : AwsEnv) (requiredTags : List String)
    (s1 s2 : String) (h : goToLower s1 = goToLower s2) :
    providerStream env requiredTags s1 = providerStream env requiredTags s2 := by
  unfold providerStream
  rw [h]

theorem providerStream_unknown (env : AwsEnv) (requiredTags : List String) (svc : String)
    (h : goToLower svc ∉ (["ec2", "s3", "rds", "lambda"] : List String)) :
    providerStream env requiredTags svc = [] := by
  have h1 : ¬ goToLower svc = "ec2" := fun hc => h (by rw [hc]; decide)
  have h2 : ¬ goToLower svc = "s3" := fun hc => h (by rw [hc]; decide)
  have h3 : ¬ goToLower svc = "rds" := fun hc => h (by rw [hc]; decide)
  have h4 : ¬ goToLower svc = "lambda" := fun hc => h (by rw [hc]; decide)
  unfold providerStream
  rw [if_neg h1, if_neg h2, if_neg h3, if_neg h4]

theorem providerStream_lambda (env : AwsEnv) (requiredTags : List String) :
    providerStream env requiredTags "lambda" = auditLambda env requiredTags := by
  unfold providerStream
  have hlow : goToLower "lambda" = "lambda" := by decide
  rw [hlow, if_neg (by decide), if_neg (by decide), if_neg (by decide), if_pos rfl]

/-- Claim C1 (amended): for every record any provider emits, missing_tags is
the required-tags input filtered to the keys absent from the record's tag
map, in input order, with the input's multiplicity kept — hence duplicate-free
whenever the required-tags input is duplicate-free. -/
theorem missingTags_filter_of_required :
    ∀ (env : AwsEnv) (requiredTags : List String) (svc : String) (r : ResourceInfo),
      PEvent.res r ∈ providerStream env requiredTags svc →
      r.missingTags = some (requiredTags.filter (fun t => (goMapLookup r.tags t).isNone)) ∧
      (requiredTags.Nodup → ∀ l, r.missingTags = some l → l.Nodup) := by
  intro env rt svc r h
  rcases res_mem_providerStream h with ⟨sname, id, rtype, pairs, rfl⟩
  have hmiss : (mkRecord sname id rtype pairs rt).missingTags =
      some (rt.filter (fun t => (goMapLookup (buildTags pairs) t).isNone)) :=
    computeMissing_eq (buildTags pairs) rt
  refine ⟨hmiss, ?_⟩
  intro hnd l hl
  rw [hmiss] at hl
  rw [← Option.some.inj hl]
  exact hnd.filter _

/-- Claim C1 (counterexample): with the reachable required-tags input
[owner, owner], the EC2 provider emits a record whose missing_tags holds a
duplicate, refuting the unconditional no-duplicates part of the claim. -/
theorem missingTags_duplicates_counterexample :
    providerStream envOneInstance ["owner", "owner"] "ec2" =
      [PEvent.res (mkRecord "EC2" "i-1" "Instance" [] ["owner", "owner"])] ∧
    (mkRecord "EC2" "i-1" "Instance" [] ["owner", "owner"]).missingTags =
      some ["owner", "owner"] ∧
    ¬ (["owner", "owner"] : List String).Nodup :=
  ⟨by decide, by decide, by decide⟩

/-- Witness for the amended claim C1 at a concrete provider output. -/
theorem missingTags_filter_witness :
    (mkRecord "EC2" "i-1" "Instance" [] ["environment", "owner"]).missingTags =
      some ((["environment", "owner"] : List String).filter (fun t =>
        (goMapLookup (mkRecord "EC2" "i-1" "Instance" [] ["environment", "owner"]).tags t).isNone)) ∧
    (["environment", "owner"] : List String).Nodup := by
  have h := missingTags_filter_of_required envOneInstance ["environment", "owner"] "ec2"
    (mkRecord "EC2" "i-1" "Instance" [] ["environment", "owner"]) (by decide)
  exact ⟨h.1, h.2 (by decide) ["environment", "owner"] (by decide)⟩

/-- Claim C2: if any launched provider sends an error, AuditResources returns
an error — the first error event observed, carrying no report; records
collected before it are discarded with the returned value. -/
theorem auditResources_error_short_circuit :
    (∀ (env : AwsEnv) (services requiredTags : List String)
        (result : Except GoError (List ResourceInfo)) (svc : String) (e : GoError),
      svc ∈ services →
      PEvent.perr e ∈ providerStream env requiredTags svc →
      AuditResources env services requiredTags result →
      ∃ e', result = Except.error e') ∧
    (∀ (pre rest : List PEvent) (e : GoError) (acc : List ResourceInfo),
      (∀ x ∈ pre, ∀ e', x ≠ PEvent.perr e') →
      collect (pre ++ PEvent.perr e :: rest) acc = Except.error e) := by
  constructor
  · intro env services rt result svc e hsvc hperr har
    obtain ⟨obs, hint, hcol⟩ := har
    have hstream : providerStream env rt svc ∈ services.map (providerStream env rt) :=
      List.mem_map_of_mem _ hsvc
    have hobs : PEvent.perr e ∈ obs := mem_interleaves hint hstream hperr
    rcases collect_error_of_mem hobs [] with ⟨e', he'⟩
    refine ⟨e', ?_⟩
    rw [← hcol]
    exact he'
  · intro pre rest e acc h
    exact collect_first_error pre rest e h acc

/-- Witness for claim C2: EC2 listing fails; a run observing that error
returns it, and a collector that sees a record before the error still ends in
the error. -/
theorem auditResources_error_short_circuit_witness :
    (∃ e', (Except.error "failed to describe EC2 instances: api down" :
        Except GoError (List ResourceInfo)) = Except.error e') ∧
    collect ([PEvent.res sampleRecord] ++ PEvent.perr "boom" :: []) [] =
      Except.error "boom" := by
  constructor
  · have hred : providerStream envEc2Down [] "ec2" =
        [PEvent.perr "failed to describe EC2 instances: api down"] := by decide
    refine auditResources_error_short_circuit.1 envEc2Down ["ec2"] [] _ "ec2"
      "failed to describe EC2 instances: api down" (List.mem_cons_self _ _) (by decide)
      ⟨[PEvent.perr "failed to describe EC2 instances: api down"], ?_, rfl⟩
    rw [List.map_cons, List.map_nil, hred]
    exact interleaves_single _
  · refine auditResources_error_short_circuit.2 [PEvent.res sampleRecord] [] "boom" [] ?_
    intro x hx e' hne
    rw [List.mem_singleton] at hx
    rw [hx] at hne
    exact PEvent.noConfusion hne

/-- Claim C3: an S3 bucket whose GetBucketTagging call fails is still
reported, with an empty tag map and every required tag missing; a Lambda
function whose ListTags call fails makes the provider send an error, which is
fatal for the whole audit. -/
theorem s3_degrades_lambda_fatal :
    (∀ (env : AwsEnv) (requiredTags : List String) (buckets : List S3Bucket)
        (b : S3Bucket) (e : GoError),
      env.listBuckets = Except.ok buckets → b ∈ buckets →
      b.getBucketTagging = Except.error e →
      PEvent.res (mkRecord "S3" b.name "Bucket" [] requiredTags) ∈ auditS3 env requiredTags ∧
      (mkRecord "S3" b.name "Bucket" [] requiredTags).tags = some [] ∧
      (mkRecord "S3" b.name "Bucket" [] requiredTags).missingTags = some requiredTags) ∧
    (∀ (env : AwsEnv) (requiredTags : List String) (fns : List LambdaFunction)
        (f : LambdaFunction) (e : GoError),
      env.listFunctions = Except.ok fns → f ∈ fns → f.listTags = Except.error e →
      PEvent.perr ("failed to get tags for Lambda function " ++ f.functionName ++ ": " ++ e)
        ∈ auditLambda env requiredTags ∧
      ∀ (services : List String) (result : Except GoError (List ResourceInfo)),
        "lambda" ∈ services →
        AuditResources env services requiredTags result →
        ∃ e', result = Except.error e') := by
  constructor
  · intro env rt buckets b e hlist hb htag
    refine ⟨?_, rfl, ?_⟩
    · unfold auditS3
      rw [hlist]
      exact List.mem_map.mpr ⟨b, hb, by rw [htag]⟩
    · have hmiss := computeMissing_eq (buildTags []) rt
      show computeMissing (buildTags []) rt = some rt
      rw [hmiss]
      congr 1
      exact List.filter_eq_self.mpr (fun a _ => rfl)
  · intro env rt fns f e hlist hf htag
    have hmem : PEvent.perr ("failed to get tags for Lambda function " ++
        f.functionName ++ ": " ++ e) ∈ auditLambda env rt := by
      unfold auditLambda
      rw [hlist]
      refine List.mem_flatMap.mpr ⟨f, hf, ?_⟩
      rw [htag]
      exact List.mem_singleton.mpr rfl
    refine ⟨hmem, ?_⟩
    intro services result hsvc har
    obtain ⟨obs, hint, hcol⟩ := har
    have hstream : providerStream env rt "lambda" ∈ services.map (providerStream env rt) :=
      List.mem_map_of_mem _ hsvc
    have hperr : PEvent.perr ("failed to get tags for Lambda function " ++
        f.functionName ++ ": " ++ e) ∈ providerStream env rt "lambda" := by
      rw [providerStream_lambda]
      exact hmem
    have hobs := mem_interleaves hint hstream hperr
    rcases collect_error_of_mem hobs [] with ⟨e', he'⟩
    refine ⟨e', ?_⟩
    rw [← hcol]
    exact he'

/-- Witness for claim C3 at a bucket and a function whose tag fetches fail. -/
theorem s3_degrades_lambda_fatal_witness :
    (PEvent.res (mkRecord "S3" "logs" "Bucket" [] ["owner"]) ∈ auditS3 envDegrade ["owner"] ∧
     (mkRecord "S3" "logs" "Bucket" [] ["owner"]).tags = some [] ∧
     (mkRecord "S3" "logs" "Bucket" [] ["owner"]).missingTags = some ["owner"]) ∧
    (∃ e', (Except.error "failed to get tags for Lambda function fn: throttled" :
        Except GoError (List ResourceInfo)) = Except.error e') := by
  constructor
  · exact s3_degrades_lambda_fatal.1 envDegrade ["owner"] [⟨"logs", .error "access denied"⟩]
      ⟨"logs", .error "access denied"⟩ "access denied" rfl (List.mem_singleton.mpr rfl) rfl
  · have hred : providerStream envDegrade ["owner"] "lambda" =
        [PEvent.perr "failed to get tags for Lambda function fn: throttled"] := by decide
    refine (s3_degrades_lambda_fatal.2 envDegrade ["owner"]
        [⟨"fn", "arn:aws:lambda:fn", .error "throttled"⟩]
        ⟨"fn", "arn:aws:lambda:fn", .error "throttled"⟩ "throttled" rfl
        (List.mem_singleton.mpr rfl) rfl).2 ["lambda"] _ (List.mem_cons_self _ _)
      ⟨[PEvent.perr "failed to get tags for Lambda function fn: throttled"], ?_, rfl⟩
    rw [List.map_cons, List.map_nil, hred]
    exact interleaves_single _

/-- Claim C4: service matching is insensitive to case (it depends only on the
lowercased identifier), an unknown identifier contributes no events and no
error, and an invocation whose requested services are all unknown succeeds
with an empty report — and can return nothing else. -/
theorem unknown_services_ignored :
    (∀ (env : AwsEnv) (requiredTags : List String) (s1 s2 : String),
      goToLower s1 = goToLower s2 →
      providerStream env requiredTags s1 = providerStream env requiredTags s2) ∧
    (∀ (env : AwsEnv) (requiredTags : List String) (svc : String),
      goToLower svc ∉ (["ec2", "s3", "rds", "lambda"] : List String) →
      providerStream env requiredTags svc = []) ∧
    (∀ (env : AwsEnv) (requiredTags services : List String),
      (∀ svc ∈ services, goToLower svc ∉ (["ec2", "s3", "rds", "lambda"] : List String)) →
      AuditResources env services requiredTags (Except.ok []) ∧
      ∀ result, AuditResources env services requiredTags result → result = Except.ok []) := by
  refine ⟨providerStream_toLower_congr, providerStream_unknown, ?_⟩
  intro env rt services h
  have hnil : ∀ s ∈ services.map (providerStream env rt), s = [] := by
    intro s hs
    rcases List.mem_map.mp hs with ⟨svc, hsvc, rfl⟩
    exact providerStream_unknown env rt svc (h svc hsvc)
  constructor
  · exact ⟨[], Interleaves.nil _ hnil, rfl⟩
  · intro result har
    obtain ⟨obs, hint, hcol⟩ := har
    rw [interleaves_eq_nil hint hnil] at hcol
    rw [← hcol]
    rfl

/-- Witness for claim C4: EC2 under two spellings, an unknown service, and an
all-unknown invocation. -/
theorem unknown_services_ignored_witness :
    providerStream envEc2Down ["owner"] "EC2" = providerStream envEc2Down ["owner"] "ec2" ∧
    providerStream envEc2Down ["owner"] "dynamodb" = [] ∧
    AuditResources envEc2Down ["dynamodb", "EKS"] ["owner"] (Except.ok []) :=
  ⟨unknown_services_ignored.1 envEc2Down ["owner"] "EC2" "ec2" (by decide),
   unknown_services_ignored.2.1 envEc2Down ["owner"] "dynamodb" (by decide),
   (unknown_services_ignored.2.2 envEc2Down ["owner"] ["dynamodb", "EKS"] (by decide)).1⟩

/-- Claim C10: every record any provider emits carries a non-nil tag map and
a non-nil missing-tags slice, so their JSON serializations are an object and
an array, never null. -/
theorem records_nonnil_json :
    ∀ (env : AwsEnv) (requiredTags : List String) (svc : String) (r : ResourceInfo),
      PEvent.res r ∈ providerStream env requiredTags svc →
      r.tags.isSome ∧ r.missingTags.isSome ∧
      jsonTagsField r.tags (goMapEntries r.tags) ≠ "null" ∧
      jsonMissingField r.missingTags ≠ "null" := by
  intro env rt svc r h
  rcases res_mem_providerStream h with ⟨sname, id, rtype, pairs, rfl⟩
  have htags : (mkRecord sname id rtype pairs rt).tags.isSome := buildTags_isSome pairs
  have hmiss : (mkRecord sname id rtype pairs rt).missingTags =
      some (rt.filter (fun t => (goMapLookup (buildTags pairs) t).isNone)) :=
    computeMissing_eq (buildTags pairs) rt
  refine ⟨htags, by rw [hmiss]; rfl, ?_, ?_⟩
  · cases hb : (mkRecord sname id rtype pairs rt).tags with
    | none => rw [hb] at htags; simp at htags
    | some entries =>
      show jsonTagObj _ ≠ "null"
      unfold jsonTagObj
      exact brace_ne_null _ _
  · rw [hmiss]
    show ("[" ++ _ ++ "]") ≠ "null"
    exact bracket_ne_null _ _

/-- Witness for claim C10 at a concrete emitted record. -/
theorem records_nonnil_json_witness :
    (mkRecord "EC2" "i-1" "Instance" [] ["owner"]).tags.isSome ∧
    (mkRecord "EC2" "i-1" "Instance" [] ["owner"]).missingTags.isSome ∧
    jsonTagsField (mkRecord "EC2" "i-1" "Instance" [] ["owner"]).tags
      (goMapEntries (mkRecord "EC2" "i-1" "Instance" [] ["owner"]).tags) ≠ "null" ∧
    jsonMissingField (mkRecord "EC2" "i-1" "Instance" [] ["owner"]).missingTags ≠ "null" :=
  records_nonnil_json envOneInstance ["owner"] "ec2"
    (mkRecord "EC2" "i-1" "Instance" [] ["owner"]) (by decide)

/-- Claim C5 (code bug): with EC2 failing and S3 listing one bucket, the
collector may observe the EC2 error first and return at once; the S3
producer's record send is then left pending forever on the unbuffered
resource channel — the producer goroutine never finishes and is not safely
abandoned: a leak on the error path. -/
theorem error_path_leaves_pending_producer :
    Interleaves
      [providerStream envEc2Down [] "ec2", providerStream envEc2Down [] "s3"]
      [PEvent.perr "failed to describe EC2 instances: api down",
       PEvent.res (mkRecord "S3" "logs" "Bucket" [] [])] ∧
    collectRemaining
      [PEvent.perr "failed to describe EC2 instances: api down",
       PEvent.res (mkRecord "S3" "logs" "Bucket" [] [])] [] =
      (Except.error "failed to describe EC2 instances: api down",
       [PEvent.res (mkRecord "S3" "logs" "Bucket" [] [])]) ∧
    [PEvent.res (mkRecord "S3" "logs" "Bucket" [] [])] ≠ ([] : List PEvent) := by
  refine ⟨?_, rfl, by decide⟩
  have h1 : providerStream envEc2Down [] "ec2" =
      [PEvent.perr "failed to describe EC2 instances: api down"] := by decide
  have h2 : providerStream envEc2Down [] "s3" =
      [PEvent.res (mkRecord "S3" "logs" "Bucket" [] [])] := by decide
  rw [h1, h2]
  refine Interleaves.cons _ 0 (by decide) _ _ _ rfl ?_
  refine Interleaves.cons _ 1 (by decide) _ _ _ rfl ?_
  exact Interleaves.nil _ (by decide)

/-- Claim C6 (counterexample): with --output xml the known provider is still
launched, the audit runs, and only afterwards is the format rejected —
contradicting that no provider is invoked on an unknown output format. -/
theorem unknown_format_providers_still_run :
    cliRun (some ["owner"]) ["ec2"] "xml" envOneInstance
      (providerStream envOneInstance ["owner"] "ec2") = (1, ["ec2"]) ∧
    (runAudit envOneInstance ["ec2"] ["owner"] "xml"
      (providerStream envOneInstance ["owner"] "ec2")).1 = ["ec2"] ∧
    (["ec2"] : List String) ≠ [] := by
  exact ⟨by decide, by decide, by decide⟩

/-- Claim C6 (amended): a missing required-tags flag is rejected before any
provider is launched, with exit code 1; an unknown output format also ends
in an error and exit code 1, but only after the audit: the providers are
launched and run before the format is validated. -/
theorem config_error_reporting :
    (∀ (services : List String) (format : String) (env : AwsEnv) (obs : List PEvent),
      cliRun none services format env obs = (1, [])) ∧
    (∀ (requiredTags services : List String) (format : String) (env : AwsEnv)
        (obs : List PEvent),
      format ∉ (["text", "json", "csv"] : List String) →
      (runAudit env services requiredTags format obs).1 = launchedProviders services ∧
      (∃ e, (runAudit env services requiredTags format obs).2 = Except.error e) ∧
      (cliRun (some requiredTags) services format env obs).1 = 1) := by
  constructor
  · intro services format env obs
    rfl
  · intro rt services format env obs h
    have hf1 : ¬ format = "json" := fun hc => h (by rw [hc]; decide)
    have hf2 : ¬ format = "csv" := fun hc => h (by rw [hc]; decide)
    have hf3 : ¬ format = "text" := fun hc => h (by rw [hc]; decide)
    have hsnd : (runAudit env services rt format obs).2 =
        (match collect obs [] with
         | .error e => Except.error ("failed to audit resources: " ++ e)
         | .ok resources =>
           if format = "json" then Except.ok (outputJSONString (canonEnum resources))
           else if format = "csv" then Except.ok (outputCSVString (canonEnum resources))
           else if format = "text" then Except.ok (outputTextString (canonEnum resources))
           else Except.error ("unsupported output format: " ++ format)) := rfl
    have herr : ∃ e, (runAudit env services rt format obs).2 = Except.error e := by
      cases hc : collect obs [] with
      | error e =>
        refine ⟨"failed to audit resources: " ++ e, ?_⟩
        rw [hsnd, hc]
      | ok resources =>
        refine ⟨"unsupported output format: " ++ format, ?_⟩
        rw [hsnd, hc]
        simp only [if_neg hf1, if_neg hf2, if_neg hf3]
    refine ⟨rfl, herr, ?_⟩
    obtain ⟨e, he⟩ := herr
    simp only [cliRun, he]

/-- Witness for the amended claim C6. -/
theorem config_error_reporting_witness :
    cliRun none ["ec2"] "text" envOneInstance [] = (1, []) ∧
    ((runAudit envOneInstance ["ec2"] ["owner"] "xml" []).1 = launchedProviders ["ec2"] ∧
     (∃ e, (runAudit envOneInstance ["ec2"] ["owner"] "xml" []).2 = Except.error e) ∧
     (cliRun (some ["owner"]) ["ec2"] "xml" envOneInstance []).1 = 1) :=
  ⟨config_error_reporting.1 ["ec2"] "text" envOneInstance [],
   config_error_reporting.2 ["owner"] ["ec2"] "xml" envOneInstance [] (by decide)⟩

/-- Claim C7 (counterexample): the scenario report never emits the claimed
quoted row — encoding/csv leaves fields without comma, quote or newline
unquoted — under either enumeration order of the record's two tags. -/
theorem csv_row_not_quoted_counterexample :
    ([("Name", "webserver"), ("environment", "production")]).Perm
      (goMapEntries sampleRecord.tags) ∧
    ([("environment", "production"), ("Name", "webserver")]).Perm
      (goMapEntries sampleRecord.tags) ∧
    outputCSVString [(sampleRecord, [("Name", "webserver"), ("environment", "production")])] ≠
      "Service,Resource ID,Resource Type,Tags,Missing Tags\n" ++
      "EC2,i-1234567890abcdef0,Instance,\"Name:webserver; environment:production\",\"project; owner\"\n" ∧
    outputCSVString [(sampleRecord, [("environment", "production"), ("Name", "webserver")])] ≠
      "Service,Resource ID,Resource Type,Tags,Missing Tags\n" ++
      "EC2,i-1234567890abcdef0,Instance,\"Name:webserver; environment:production\",\"project; owner\"\n" :=
  ⟨by decide, by decide, by decide, by decide⟩

/-- Claim C7 (amended): CSV output is the header row plus one row per
resource, tags flattened to key:value pairs joined by semicolon-space; the
fields of the scenario contain no comma, quote or newline, so they are
emitted unquoted, with the tag-pair order given by map iteration order. -/
theorem csv_scenario_output :
    outputCSVString [(sampleRecord, [("Name", "webserver"), ("environment", "production")])] =
      "Service,Resource ID,Resource Type,Tags,Missing Tags\nEC2,i-1234567890abcdef0,Instance,Name:webserver; environment:production,project; owner\n" ∧
    outputCSVString [(sampleRecord, [("environment", "production"), ("Name", "webserver")])] =
      "Service,Resource ID,Resource Type,Tags,Missing Tags\nEC2,i-1234567890abcdef0,Instance,environment:production; Name:webserver,project; owner\n" ∧
    auditEC2 envScenario ["environment", "project", "owner"] = [PEvent.res sampleRecord] :=
  ⟨by decide, by decide, by decide⟩

theorem csvRowFields_set3 (e1 e2 : List (String × String)) (r : ResourceInfo) :
    (csvRowFields e1 r).set 3 "" = (csvRowFields e2 r).set 3 "" := by
  unfold csvRowFields
  rfl

theorem map_eq_of_forall2 {α β : Type} {R : α → α → Prop} (f : α → β)
    (hf : ∀ p q, R p q → f p = f q) :
    ∀ {l1 l2 : List α}, List.Forall₂ R l1 l2 → l1.map f = l2.map f := by
  intro l1 l2 h
  induction h with
  | nil => rfl
  | cons hpq htail ih =>
    rw [List.map_cons, List.map_cons, hf _ _ hpq, ih]

theorem textBlock_congr {e1 e2 : List (String × String)} (r : ResourceInfo)
    (hp : e1.Perm e2) (hn : (e1.map Prod.fst).Nodup) :
    textBlock e1 r = textBlock e2 r := by
  unfold textBlock fmtTagMap
  rw [sortEntries_eq_of_perm hp hn]

theorem jsonRecord_congr {e1 e2 : List (String × String)} (r : ResourceInfo)
    (hp : e1.Perm e2) (hn : (e1.map Prod.fst).Nodup) :
    jsonRecord e1 r = jsonRecord e2 r := by
  unfold jsonRecord jsonTagsField
  cases r.tags with
  | none => rfl
  | some entries =>
    unfold jsonTagObj
    rw [sortEntries_eq_of_perm hp hn]

/-- Claim C8 (counterexample): two renderings of the same report — differing
only in the map iteration order both runs may legitimately see — produce
different CSV bytes. -/
theorem csv_two_renderings_differ :
    ([("Name", "webserver"), ("environment", "production")]).Perm
      ([("environment", "production"), ("Name", "webserver")]) ∧
    ([("Name", "webserver"), ("environment", "production")]).Perm
      (goMapEntries sampleRecord.tags) ∧
    outputCSVString [(sampleRecord, [("Name", "webserver"), ("environment", "production")])] ≠
      outputCSVString [(sampleRecord, [("environment", "production"), ("Name", "webserver")])] :=
  ⟨by decide, by decide, by decide⟩

/-- Claim C8 (amended): the text and JSON presenters are deterministic
functions of the report — their bytes do not depend on the tag-map
enumeration order — while the CSV presenter is deterministic in every column
except Tags, whose pair order follows map iteration order. -/
theorem presenters_enum_invariance :
    ∀ rs1 rs2 : List (ResourceInfo × List (String × String)),
      List.Forall₂ (fun p q =>
        p.1 = q.1 ∧ p.2.Perm q.2 ∧ (p.2.map Prod.fst).Nodup) rs1 rs2 →
      outputTextString rs1 = outputTextString rs2 ∧
      outputJSONString rs1 = outputJSONString rs2 ∧
      rs1.map (fun p => (csvRowFields p.2 p.1).set 3 "") =
        rs2.map (fun p => (csvRowFields p.2 p.1).set 3 "") := by
  intro rs1 rs2 h
  have hf : ∀ p q : ResourceInfo × List (String × String),
      (p.1 = q.1 ∧ p.2.Perm q.2 ∧ (p.2.map Prod.fst).Nodup) →
      (textBlock p.2 p.1 = textBlock q.2 q.1 ∧
       jsonRecord p.2 p.1 = jsonRecord q.2 q.1 ∧
       (csvRowFields p.2 p.1).set 3 "" = (csvRowFields q.2 q.1).set 3 "") := by
    intro p q ⟨heq, hperm, hnd⟩
    refine ⟨?_, ?_, ?_⟩
    · rw [← heq]
      exact textBlock_congr p.1 hperm hnd
    · rw [← heq]
      exact jsonRecord_congr p.1 hperm hnd
    · rw [← heq]
      exact csvRowFields_set3 p.2 q.2 p.1
  have hmapText := @map_eq_of_forall2 (ResourceInfo × List (String × String)) String
    (fun p q => p.1 = q.1 ∧ p.2.Perm q.2 ∧ (p.2.map Prod.fst).Nodup)
    (fun p => textBlock p.2 p.1) (fun p q hpq => (hf p q hpq).1) rs1 rs2 h
  have hmapJson := @map_eq_of_forall2 (ResourceInfo × List (String × String)) String
    (fun p q => p.1 = q.1 ∧ p.2.Perm q.2 ∧ (p.2.map Prod.fst).Nodup)
    (fun p => jsonRecord p.2 p.1) (fun p q hpq => (hf p q hpq).2.1) rs1 rs2 h
  have hmapCsv := @map_eq_of_forall2 (ResourceInfo × List (String × String)) (List String)
    (fun p q => p.1 = q.1 ∧ p.2.Perm q.2 ∧ (p.2.map Prod.fst).Nodup)
    (fun p => (csvRowFields p.2 p.1).set 3 "") (fun p q hpq => (hf p q hpq).2.2) rs1 rs2 h
  refine ⟨?_, ?_, hmapCsv⟩
  · unfold outputTextString
    rw [hmapText]
  · cases h with
    | nil => rfl
    | cons hpq htail =>
      unfold outputJSONString
      rw [hmapJson]

/-- Witness for the amended claim C8 on a concrete report. -/
theorem presenters_enum_invariance_witness :
    outputTextString [(sampleRecord, [("Name", "webserver"), ("environment", "production")])] =
      outputTextString [(sampleRecord, [("environment", "production"), ("Name", "webserver")])] ∧
    outputJSONString [(sampleRecord, [("Name", "webserver"), ("environment", "production")])] =
      outputJSONString [(sampleRecord, [("environment", "production"), ("Name", "webserver")])] :=
  have h := presenters_enum_invariance
    [(sampleRecord, [("Name", "webserver"), ("environment", "production")])]
    [(sampleRecord, [("environment", "production"), ("Name", "webserver")])]
    (List.Forall₂.cons ⟨rfl, by decide, by decide⟩ List.Forall₂.nil)
  ⟨h.1, h.2.1⟩

/-- Claim C9 (counterexample): on a destination whose writes fail, OutputText
still returns nil — a text-format write failure is not surfaced. -/
theorem text_write_failure_not_surfaced :
    (mwrite brokenPipeWriter "x").2 = some "broken pipe" ∧
    (outputTextW brokenPipeWriter
      [(sampleRecord, [("Name", "webserver"), ("environment", "production")])]).2 = none :=
  ⟨rfl, rfl⟩

/-- Claim C9 (amended): OutputJSON surfaces a write failure as a returned
error (and any returned error makes the CLI exit non-zero), but OutputText
discards every write result and always returns nil, and OutputCSV ignores
the error of its deferred final Flush, so a write failure on output that
stayed in the 4096-byte buffer is silent there as well. -/
theorem presentation_error_policy :
    (∀ (w : MWriter) (rs : List (ResourceInfo × List (String × String))),
      (outputTextW w rs).2 = none) ∧
    (∀ (w : MWriter) (rs : List (ResourceInfo × List (String × String))),
      w.failing = true → (outputJSONW w rs).2 = some "broken pipe") ∧
    (outputCSVW brokenPipeWriter
      [(sampleRecord, [("Name", "webserver"), ("environment", "production")])]).2 = none := by
  refine ⟨fun w rs => rfl, ?_, by decide⟩
  intro w rs h
  unfold outputJSONW mwrite
  simp [h]

/-- Witness for the amended claim C9 on the failing destination. -/
theorem presentation_error_policy_witness :
    (outputTextW brokenPipeWriter []).2 = none ∧
    (outputJSONW brokenPipeWriter []).2 = some "broken pipe" :=
  ⟨presentation_error_policy.1 brokenPipeWriter [],
   presentation_error_policy.2.1 brokenPipeWriter [] rfl⟩

end TagAuditor
